import Mathlib

/-!
Verification of the potato-company web application (apps `main` and `records`).

The development shallowly embeds the data model, form validation and request
handlers of the repository.  Python strings are modelled as Lean `String`
(lists of characters), Django model stores as Lean lists, timestamps as `Nat`,
and `DecimalField` values as exact rationals (`Rat`).  Fallible operations
return `Option` or `Except`.  Each definition is a direct translation of the
corresponding source function; framework behaviour that the source relies on
(field cleaning, e-mail syntax checking, date parsing) is embedded at the
level of detail the handlers observe.
-/

/-- The whitespace characters stripped by the Python `str.strip` method. -/
def isPyWS (c : Char) : Bool :=
  c == ' ' || c == '\t' || c == '\n' || c == '\r' || c == '\x0b' || c == '\x0c'

/-- Python `str.strip()`: remove leading and trailing whitespace.  Django
character fields strip their raw value before validating it. -/
def pyStrip (s : String) : String :=
  String.mk (((s.data.dropWhile isPyWS).reverse.dropWhile isPyWS).reverse)

/-- Helper for `pyWords`: accumulate the current word (reversed) while
scanning the remaining characters. -/
def pyWordsAux : List Char → List Char → List (List Char)
  | cur, [] => if cur.isEmpty then [] else [cur.reverse]
  | cur, c :: cs =>
    if isPyWS c then
      if cur.isEmpty then pyWordsAux [] cs else cur.reverse :: pyWordsAux [] cs
    else pyWordsAux (c :: cur) cs

/-- Python `str.split()` with no arguments: split on runs of whitespace,
producing no empty words. -/
def pyWords (s : String) : List (List Char) := pyWordsAux [] s.data

/-- Helper for `pyTitle`: the Boolean argument records whether the previous
character was alphabetic. -/
def pyTitleAux : Bool → List Char → List Char
  | _, [] => []
  | prevAlpha, c :: cs =>
    (if c.isAlpha then (if prevAlpha then c.toLower else c.toUpper) else c) ::
      pyTitleAux c.isAlpha cs

/-- Python `str.title()`: uppercase every letter that follows a non-letter and
lowercase every other letter (ASCII model). -/
def pyTitle (s : String) : String := String.mk (pyTitleAux false s.data)

/-- Split a character list at every occurrence of the separator, keeping empty
segments, as the Python `str.split(sep)` method does. -/
def splitOnChar (sep : Char) : List Char → List (List Char)
  | [] => [[]]
  | c :: cs =>
    let rest := splitOnChar sep cs
    if c == sep then [] :: rest
    else
      match rest with
      | h :: t => (c :: h) :: t
      | [] => [[c]]

/-- Helper for `natDigits`: decimal digits of `n`, most significant first,
with an explicit fuel argument so that the definition is structurally
recursive and evaluates inside the kernel. -/
def natDigitsAux : Nat → Nat → List Char
  | 0, _ => []
  | fuel + 1, n =>
    if n < 10 then [Char.ofNat (48 + n)]
    else natDigitsAux fuel (n / 10) ++ [Char.ofNat (48 + n % 10)]

/-- Decimal representation of a natural number, as produced by the Python
decimal format specifier. -/
def natDigits (n : Nat) : List Char := natDigitsAux (n + 1) n

/-- Helper for `parseDigits`: fold decimal digits onto an accumulator,
failing on any non-digit character, as Python `int` does. -/
def parseDigitsAux : Nat → List Char → Option Nat
  | acc, [] => some acc
  | acc, c :: cs =>
    if c.isDigit then parseDigitsAux (10 * acc + (c.toNat - 48)) cs else none

/-- Python `int(s)` on a plain digit string: the represented number, or
failure when the string is empty or holds a non-digit. -/
def parseDigits (l : List Char) : Option Nat :=
  if l.isEmpty then none else parseDigitsAux 0 l

/-- The Python format expression producing a zero-padded five digit field,
as in the invoice format string of `Sale.save`. -/
def pad5 (n : Nat) : String :=
  String.mk (List.replicate (5 - (natDigits n).length) '0' ++ natDigits n)

/-- The invoice number format of `records/models.py`: the literal prefix
followed by the sequence number padded to five digits. -/
def invFormat (n : Nat) : String := "INV-" ++ pad5 n

/-- Python `s.split(sep)[-1]` for the separator used by `Sale.save`: the
suffix of the string after its last dash. -/
def afterLastDash (s : String) : String :=
  String.mk ((s.data.reverse.takeWhile (fun c => c != '-')).reverse)

/-- The parse performed by `Sale.save` on the previous invoice number:
`int(invoice_number.split(&quot;-&quot;)[-1])`, with failure modelling the
exception raised on a non-numeric suffix. -/
def parseTrailing (s : String) : Option Nat := parseDigits (afterLastDash s).data

/-- The body of the phone RegexValidator with pattern matching nine to
fifteen digits: all characters are digits and the count is within range. -/
def digitsRun (l : List Char) : Bool :=
  l.all (fun c => c.isDigit) && decide (9 ≤ l.length) && decide (l.length ≤ 15)

/-- The phone regular expression of `main/forms.py` and `main/models.py`
(an anchored optional plus sign, optional literal one, then nine to fifteen
digits), compiled into its four alternatives. -/
def phoneMatch (l : List Char) : Bool :=
  digitsRun l ||
  (match l with
   | c :: r =>
     (c == '1' && digitsRun r) ||
     (c == '+' &&
       (digitsRun r ||
         (match r with
          | c2 :: r2 => c2 == '1' && digitsRun r2
          | [] => false)))
   | [] => false)

/-- The phone rule exactly as the specification words it: an optional leading
plus sign, an optional literal one, then nine to fifteen digits. -/
def phoneSpec (l : List Char) : Prop :=
  ∃ p o d, l = p ++ o ++ d ∧ (p = [] ∨ p = ['+']) ∧ (o = [] ∨ o = ['1']) ∧
    (∀ c ∈ d, c.isDigit = true) ∧ 9 ≤ d.length ∧ d.length ≤ 15

/-- Characters accepted in the user part of an e-mail address by the model
below. -/
def isEmailLocalChar (c : Char) : Bool :=
  c.isAlpha || c.isDigit || c == '.' || c == '_' || c == '%' || c == '+' || c == '-'

/-- Characters accepted in a domain label of an e-mail address by the model
below. -/
def isDomainChar (c : Char) : Bool := c.isAlpha || c.isDigit || c == '-'

/-- Modelled from the spec: &quot;Email: must be a syntactically valid e-mail
address.&quot;  The syntactic e-mail check is performed by the web framework,
which is an external collaborator of this repository; it is modelled as a
nonempty user part of common address characters, an at sign, and a domain of
at least two nonempty labels whose last label is alphabetic of length at
least two. -/
def validEmail (s : String) : Bool :=
  match splitOnChar '@' s.data with
  | [lp, domain] =>
    (!lp.isEmpty) && lp.all isEmailLocalChar &&
    (let labels := splitOnChar '.' domain
     decide (2 ≤ labels.length) &&
     labels.all (fun l => (!l.isEmpty) && l.all isDomainChar) &&
     (match labels.getLast? with
      | some tld => decide (2 ≤ tld.length) && tld.all (fun c => c.isAlpha)
      | none => false))
  | _ => false

/-- A calendar date, the value type of a Django DateField. -/
structure PyDate where
  year : Nat
  month : Nat
  day : Nat
deriving DecidableEq

/-- Number of days in a month, with the Gregorian leap-year rule. -/
def daysInMonth (y m : Nat) : Nat :=
  if m = 2 then (if (y % 4 == 0 && y % 100 != 0) || y % 400 == 0 then 29 else 28)
  else if m == 4 || m == 6 || m == 9 || m == 11 then 30 else 31

/-- Parsing of a date input in the ISO input format of the framework
DateField (year-month-day with a calendar validity check). -/
def parseDate (s : String) : Option PyDate :=
  match splitOnChar '-' s.data with
  | [ys, ms, ds] =>
    match parseDigits ys, parseDigits ms, parseDigits ds with
    | some y, some m, some d =>
      if 1 ≤ m ∧ m ≤ 12 ∧ 1 ≤ d ∧ d ≤ daysInMonth y m then some ⟨y, m, d⟩ else none
    | _, _, _ => none
  | _ => none

/-- The error message attached to a missing required field. -/
def requiredMsg : String := "This field is required."

/-- Collect the error of one field into the error mapping of a form, keyed by
the field name; a clean field contributes nothing. -/
def collectErr {α : Type} (name : String) : Except String α → List (String × String)
  | .ok _ => []
  | .error m => [(name, m)]

/-- Whether a fallible field clean succeeded. -/
def okB {α : Type} : Except String α → Bool
  | .ok _ => true
  | .error _ => false

/-- The cleaned value of a field, with a default used only on paths where the
form as a whole is already invalid. -/
def exVal {α : Type} (e : Except String α) (dflt : α) : α := e.toOption.getD dflt

/-- Django CharField cleaning: strip the raw value, enforce the required
flag, then the optional maximum and minimum length validators. -/
def cleanChar (required : Bool) (maxLen : Option Nat) (minLen : Option Nat)
    (v : String) : Except String String :=
  let s := pyStrip v
  if s = "" then
    if required then .error requiredMsg else .ok ""
  else if (match maxLen with | some m => decide (m < s.length) | none => false) then
    .error "Ensure this value has at most the allowed number of characters."
  else if (match minLen with | some m => decide (s.length < m) | none => false) then
    .error "Ensure this value has at least the required number of characters."
  else .ok s

/-- Django ChoiceField cleaning: an empty selection is rejected as required,
any other value must be one of the declared choices.  (The choice lists below
omit the empty placeholder entry, which the empty check already rejects.) -/
def cleanChoice (choices : List String) (v : String) : Except String String :=
  if v = "" then .error requiredMsg
  else if choices.contains v then .ok v
  else .error "Select a valid choice."

/-- Django EmailField cleaning: strip, require nonempty, check the syntax. -/
def cleanEmail (v : String) : Except String String :=
  let s := pyStrip v
  if s = "" then .error requiredMsg
  else if validEmail s then .ok s
  else .error "Enter a valid email address."

/-- Django DateField cleaning: strip, require nonempty, parse the date. -/
def cleanDate (v : String) : Except String PyDate :=
  let s := pyStrip v
  if s = "" then .error requiredMsg
  else
    match parseDate s with
    | some dt => .ok dt
    | none => .error "Enter a valid date."

/-- The optional contact-form phone field of `main/forms.py`: not required,
at most seventeen characters, and validated by the phone regular expression
when a value is present. -/
def cleanContactPhone (v : String) : Except String String :=
  let s := pyStrip v
  if s = "" then .ok ""
  else if decide (17 < s.length) then
    .error "Ensure this value has at most 17 characters."
  else if phoneMatch s.data then .ok s
  else .error "Phone number must be entered in the format: +999999999. Up to 15 digits allowed."

/-- The quote-request phone field of `main/forms.py`: a required CharField of
at most twenty characters, carrying no format validator. -/
def cleanQuotePhone (v : String) : Except String String :=
  cleanChar true (some 20) none v

/-- The required privacy-agreement checkbox of the contact form. -/
def cleanPrivacy (b : Bool) : Except String Bool :=
  if b then .ok true else .error requiredMsg

/-- The nonempty subject choices of the contact form and the ContactMessage
model. -/
def contactSubjects : List String :=
  ["general", "wholesale", "supply", "quality", "support", "other"]

/-- The nonempty variety choices of the quote-request form. -/
def quoteVarieties : List String :=
  ["russet", "red", "yukon", "fingerling", "sweet", "mixed"]

/-- The nonempty quantity-range choices of the quote-request form. -/
def quoteQuantities : List String := ["small", "medium", "large", "bulk"]

/-- The interest choices of the newsletter form. -/
def newsletterChoices : List String :=
  ["products", "prices", "seasonal", "recipes", "wholesale"]

/-- The raw data of one contact-form submission.  A field absent from the
request is received as the empty string. -/
structure ContactSubmission where
  name : String
  email : String
  phone : String
  company : String
  subject : String
  message : String
  privacy_agreement : Bool
deriving DecidableEq

/-- The contact-form name field: a required CharField of at most one hundred
characters followed by `clean_name`, which demands at least one letter and
returns the title-cased value. -/
def cleanContactName (v : String) : Except String String :=
  match cleanChar true (some 100) none v with
  | .error m => .error m
  | .ok s =>
    if s.data.any (fun c => c.isAlpha) then .ok (pyTitle s)
    else .error "Name must contain at least one letter."

/-- The contact-form message field: a required field with a minimum length of
ten characters followed by `clean_message`, which demands at least three
whitespace-separated words. -/
def cleanContactMessage (v : String) : Except String String :=
  match cleanChar true none (some 10) v with
  | .error m => .error m
  | .ok s =>
    if decide ((pyWords s).length < 3) then
      .error "Please provide a more detailed message (at least 3 words)."
    else .ok s

/-- The field-by-field error mapping of a contact-form submission; the form
is valid exactly when this mapping is empty. -/
def contactErrors (sub : ContactSubmission) : List (String × String) :=
  collectErr "name" (cleanContactName sub.name) ++
  collectErr "email" (cleanEmail sub.email) ++
  collectErr "phone" (cleanContactPhone sub.phone) ++
  collectErr "company" (cleanChar false (some 100) none sub.company) ++
  collectErr "subject" (cleanChoice contactSubjects sub.subject) ++
  collectErr "message" (cleanContactMessage sub.message) ++
  collectErr "privacy_agreement" (cleanPrivacy sub.privacy_agreement)

/-- A persisted ContactMessage row (`main/models.py`); timestamps and staff
annotations are omitted since no handler logic reads them. -/
structure ContactMessage where
  name : String
  email : String
  phone : String
  company : String
  subject : String
  message : String
  status : String
deriving DecidableEq

/-- The row persisted by `form.save()` for a valid contact submission: the
cleaned field values with the default status. -/
def mkContactMessage (sub : ContactSubmission) : ContactMessage :=
  { name := exVal (cleanContactName sub.name) ""
    email := exVal (cleanEmail sub.email) ""
    phone := exVal (cleanContactPhone sub.phone) ""
    company := exVal (cleanChar false (some 100) none sub.company) ""
    subject := exVal (cleanChoice contactSubjects sub.subject) ""
    message := exVal (cleanContactMessage sub.message) ""
    status := "new" }

/-- The outcome of the mail-sending collaborator; the Boolean chooses a run
in which the send raises. -/
def trySendMail (sendFails : Bool) : Except String Unit :=
  if sendFails then .error "send failed" else .ok ()

/-- The response of the page-rendering contact endpoint. -/
inductive ContactResponse where
  | redirectContact (flash : String)
  | rerender (errors : List (String × String)) (flash : String)
deriving DecidableEq

/-- The success flash message of the contact handler. -/
def contactSuccessFlash : String :=
  "Thank you for your message! We will get back to you within 24 hours."

/-- The failure flash message of the contact handler. -/
def contactErrorFlash : String := "Please correct the errors below and try again."

/-- `ContactView.post`: validate, persist on success, attempt the
notification mail with any failure caught and logged, then redirect with a
success flash; on validation failure re-render with the field errors. -/
def contactPost (sub : ContactSubmission) (store : List ContactMessage)
    (sendFails : Bool) : List ContactMessage × ContactResponse :=
  if contactErrors sub = [] then
    let store2 := store ++ [mkContactMessage sub]
    let _mail := trySendMail sendFails
    (store2, .redirectContact contactSuccessFlash)
  else
    (store, .rerender (contactErrors sub) contactErrorFlash)

/-- The raw data of one quote-request submission. -/
structure QuoteSubmission where
  company_name : String
  contact_person : String
  email : String
  phone : String
  variety : String
  quantity_range : String
  delivery_location : String
  delivery_date : String
  additional_requirements : String
deriving DecidableEq

/-- The field-by-field error mapping of a quote-request submission. -/
def quoteErrors (sub : QuoteSubmission) : List (String × String) :=
  collectErr "company_name" (cleanChar true (some 100) none sub.company_name) ++
  collectErr "contact_person" (cleanChar true (some 100) none sub.contact_person) ++
  collectErr "email" (cleanEmail sub.email) ++
  collectErr "phone" (cleanQuotePhone sub.phone) ++
  collectErr "variety" (cleanChoice quoteVarieties sub.variety) ++
  collectErr "quantity_range" (cleanChoice quoteQuantities sub.quantity_range) ++
  collectErr "delivery_location" (cleanChar true (some 200) none sub.delivery_location) ++
  collectErr "delivery_date" (cleanDate sub.delivery_date) ++
  collectErr "additional_requirements" (cleanChar false none none sub.additional_requirements)

/-- A persisted QuoteRequest row (`main/models.py`); the staff-managed quote
price and the timestamps are omitted since the handler never sets them. -/
structure QuoteRequest where
  company_name : String
  contact_person : String
  email : String
  phone : String
  variety : String
  quantity_range : String
  delivery_location : String
  delivery_date : PyDate
  additional_requirements : String
  status : String
deriving DecidableEq

/-- The row created by the quote handler for a valid submission. -/
def mkQuoteRequest (sub : QuoteSubmission) : QuoteRequest :=
  { company_name := exVal (cleanChar true (some 100) none sub.company_name) ""
    contact_person := exVal (cleanChar true (some 100) none sub.contact_person) ""
    email := exVal (cleanEmail sub.email) ""
    phone := exVal (cleanQuotePhone sub.phone) ""
    variety := exVal (cleanChoice quoteVarieties sub.variety) ""
    quantity_range := exVal (cleanChoice quoteQuantities sub.quantity_range) ""
    delivery_location := exVal (cleanChar true (some 200) none sub.delivery_location) ""
    delivery_date := exVal (cleanDate sub.delivery_date) ⟨1970, 1, 1⟩
    additional_requirements := exVal (cleanChar false none none sub.additional_requirements) ""
    status := "pending" }

/-- The JSON payload returned by the two AJAX endpoints. -/
structure JsonResp where
  success : Bool
  message : String
  errors : Option (List (String × String))
deriving DecidableEq

/-- The success message of the quote handler. -/
def quoteSuccessMsg : String :=
  "Quote request submitted successfully! We will send you a detailed quote within 2 business days."

/-- The failure message of the quote handler. -/
def quoteFailMsg : String := "Please correct the form errors and try again."

/-- `QuoteRequestView.post`: validate, create the row and attempt the
confirmation mail (failures caught) on success, otherwise answer with the
field errors and no write. -/
def quotePost (sub : QuoteSubmission) (store : List QuoteRequest)
    (sendFails : Bool) : List QuoteRequest × JsonResp :=
  if quoteErrors sub = [] then
    let store2 := store ++ [mkQuoteRequest sub]
    let _mail := trySendMail sendFails
    (store2, ⟨true, quoteSuccessMsg, none⟩)
  else
    (store, ⟨false, quoteFailMsg, some (quoteErrors sub)⟩)

/-- A persisted Newsletter row (`main/models.py`). -/
structure Newsletter where
  email : String
  interests : List String
  subscribed_at : Nat
  is_active : Bool
deriving DecidableEq

/-- The parsed JSON data of a newsletter signup; a `none` component models a
key absent from the request body. -/
structure NewsletterData where
  email : Option String
  interests : Option (List String)
deriving DecidableEq

/-- A newsletter request body: either text that is not well-formed JSON, on
which the JSON parse of the handler raises, or a parsed data object. -/
inductive Body where
  | malformed (raw : String)
  | json (data : NewsletterData)
deriving DecidableEq

/-- The newsletter interests field: an optional multiple-choice field whose
values must all be declared choices; an absent key yields the empty list. -/
def cleanInterests (v : Option (List String)) : Except String (List String) :=
  match v with
  | none => .ok []
  | some l =>
    if l.all (fun i => newsletterChoices.contains i) then .ok l
    else .error "Select a valid choice."

/-- The field-by-field error mapping of a newsletter signup. -/
def newsletterErrors (d : NewsletterData) : List (String × String) :=
  collectErr "email" (cleanEmail (d.email.getD "")) ++
  collectErr "interests" (cleanInterests d.interests)

/-- Database lookup by the unique e-mail column. -/
def findEmail (store : List Newsletter) (e : String) : Option Newsletter :=
  store.find? (fun r => r.email == e)

/-- Saving an updated row: replace the first row with the given e-mail. -/
def updateFirst (e : String) (f : Newsletter → Newsletter) :
    List Newsletter → List Newsletter
  | [] => []
  | r :: rest =>
    if r.email == e then f r :: rest else r :: updateFirst e f rest

/-- The `get_or_create` upsert of `NewsletterSignupView.post`: create the row
with the defaults when the e-mail is new, otherwise replace the interests,
force the active flag, and save; the Boolean is the created flag. -/
def newsletterUpsert (store : List Newsletter) (now : Nat) (e : String)
    (ints : List String) : List Newsletter × Bool :=
  match findEmail store e with
  | some _ =>
    (updateFirst e (fun r => { r with interests := ints, is_active := true }) store, false)
  | none =>
    (store ++ [{ email := e, interests := ints, subscribed_at := now, is_active := true }], true)

/-- An administrative deactivation of a subscription between two signups. -/
def deactivate (e : String) : List Newsletter → List Newsletter :=
  updateFirst e (fun r => { r with is_active := false })

/-- `NewsletterSignupView.post`: a JSON decode error is caught and answered
with a generic message; otherwise validate, upsert by e-mail, attempt the
welcome mail (failures caught), and answer with the created-or-updated
message. -/
def newsletterPost (store : List Newsletter) (now : Nat) (b : Body) :
    List Newsletter × JsonResp :=
  match b with
  | .malformed _ => (store, ⟨false, "Invalid request format.", none⟩)
  | .json d =>
    if newsletterErrors d = [] then
      let e := exVal (cleanEmail (d.email.getD "")) ""
      let ints := exVal (cleanInterests d.interests) []
      match newsletterUpsert store now e ints with
      | (st2, true) => (st2, ⟨true, "Thank you for subscribing to our newsletter!", none⟩)
      | (st2, false) => (st2, ⟨true, "Your newsletter preferences have been updated!", none⟩)
    else
      (store, ⟨false, "Please enter a valid email address.", some (newsletterErrors d)⟩)

/-- The number of rows with a given e-mail. -/
def countEmail (store : List Newsletter) (e : String) : Nat :=
  (store.filter (fun r => r.email == e)).length

/-- A Sale row of `records/models.py`, reduced to the columns read or
written by the invoice-number logic of `Sale.save`; the customer, date,
quantity and price columns do not participate in it. -/
structure Sale where
  id : Nat
  invoice_number : String
deriving DecidableEq

/-- The query `Sale.objects.order_by(&quot;-id&quot;).first()`: the row with
the greatest primary key. -/
def lastById : List Sale → Option Sale
  | [] => none
  | s :: rest =>
    match lastById rest with
    | none => some s
    | some m => some (if s.id > m.id then s else m)

/-- The invoice-assignment step of `Sale.save`: when the instance has no
invoice number, read the row with the greatest id, take the number after the
last dash of its invoice (zero when there is no row or its invoice is empty),
and format the successor; a parse failure models the exception of `int`. -/
def assignInvoice (existing : List Sale) (s : Sale) : Option Sale :=
  if s.invoice_number = "" then
    let lastNum : Option Nat :=
      match lastById existing with
      | none => some 0
      | some last =>
        if last.invoice_number = "" then some 0
        else parseTrailing last.invoice_number
    match lastNum with
    | none => none
    | some k => some { s with invoice_number := invFormat (k + 1) }
  else some s

/-- The sale table together with its auto-increment primary-key counter. -/
structure SaleStore where
  sales : List Sale
  nextId : Nat
deriving DecidableEq

/-- Saving a fresh Sale instance: run the invoice assignment of `Sale.save`
against the current table, then insert the row under the next primary key. -/
def saveNewSale (st : SaleStore) (s : Sale) : Option SaleStore :=
  match assignInvoice st.sales s with
  | none => none
  | some s2 => some ⟨st.sales ++ [{ s2 with id := st.nextId }], st.nextId + 1⟩

/-- A single-threaded run creating `n` sales successively, none with an
explicit invoice number, starting from the empty table. -/
def createEmptyN : Nat → Option SaleStore
  | 0 => some ⟨[], 1⟩
  | n + 1 =>
    match createEmptyN n with
    | none => none
    | some st => saveNewSale st ⟨0, ""⟩

/-- The sale inserted in position `i` (zero-based) of such a run. -/
def invSale (i : Nat) : Sale := ⟨i + 1, invFormat (i + 1)⟩

/-- A PlantingRecord row of `records/models.py`, with the optional actual
yield; decimal columns are modelled as exact rationals. -/
structure PlantingRecord where
  field_name : String
  date_planted : PyDate
  expected_yield_kg : Rat
  actual_yield_kg : Option Rat
  harvest_date : Option PyDate
  status : String
deriving DecidableEq

/-- Python truthiness of an optional decimal column: false for a missing
value and for zero. -/
def decTruthy : Option Rat → Bool
  | none => false
  | some q => decide (q ≠ 0)

/-- The `yield_efficiency` property: actual over expected times one hundred
when both columns are truthy, otherwise null. -/
def yieldEfficiency (r : PlantingRecord) : Option Rat :=
  if decTruthy r.actual_yield_kg && decide (r.expected_yield_kg ≠ 0) then
    some (r.actual_yield_kg.getD 0 / r.expected_yield_kg * 100)
  else none

/-- The required fields of the quote-request form. -/
inductive QField where
  | company_name | contact_person | email | phone | variety | quantity_range
  | delivery_location | delivery_date
deriving DecidableEq

/-- The name under which a required quote field is keyed in the error
mapping. -/
def qfieldName : QField → String
  | .company_name => "company_name"
  | .contact_person => "contact_person"
  | .email => "email"
  | .phone => "phone"
  | .variety => "variety"
  | .quantity_range => "quantity_range"
  | .delivery_location => "delivery_location"
  | .delivery_date => "delivery_date"

/-- The raw submitted value of a required quote field. -/
def qfieldRaw (sub : QuoteSubmission) : QField → String
  | .company_name => sub.company_name
  | .contact_person => sub.contact_person
  | .email => sub.email
  | .phone => sub.phone
  | .variety => sub.variety
  | .quantity_range => sub.quantity_range
  | .delivery_location => sub.delivery_location
  | .delivery_date => sub.delivery_date

/-- C9: a POST to the newsletter-signup endpoint whose body is not
well-formed JSON is answered with a JSON payload carrying success false and
the generic invalid-request-format message; no parse exception escapes the
handler and the newsletter table is unchanged. -/
theorem newsletter_malformed_body (store : List Newsletter) (now : Nat)
    (raw : String) :
    newsletterPost store now (.malformed raw) =
      (store, ⟨false, "Invalid request format.", none⟩) := by
  rfl

/-- C7: yield efficiency is null when the actual yield is unset, and when
both yields are present and strictly positive it is actual over expected
times one hundred, in particular exactly one hundred when they are equal. -/
theorem yield_efficiency_rule (r : PlantingRecord) :
    (r.actual_yield_kg = none → yieldEfficiency r = none) ∧
    (∀ a : Rat, r.actual_yield_kg = some a → 0 < a → 0 < r.expected_yield_kg →
      yieldEfficiency r = some (a / r.expected_yield_kg * 100)) ∧
    (∀ a : Rat, r.actual_yield_kg = some a → 0 < a → a = r.expected_yield_kg →
      yieldEfficiency r = some 100) := by
  refine ⟨?_, ?_, ?_⟩
  · intro h
    simp [yieldEfficiency, decTruthy, h]
  · intro a ha ha0 he0
    simp [yieldEfficiency, decTruthy, ha, ne_of_gt ha0, ne_of_gt he0]
  · intro a ha ha0 hae
    have hne : a ≠ 0 := ne_of_gt ha0
    simp [yieldEfficiency, decTruthy, ha, hne, ← hae]

/-- Witness for C7: a record with equal actual and expected yields has
efficiency exactly one hundred. -/
theorem yield_efficiency_rule_witness :
    yieldEfficiency
      { field_name := "north"
        date_planted := ⟨2025, 4, 1⟩
        expected_yield_kg := 50
        actual_yield_kg := some 50
        harvest_date := none
        status := "harvested" } = some 100 :=
  (yield_efficiency_rule _).2.2 50 rfl (by norm_num) rfl

/-- The digit-run check holds exactly when all characters are digits and the
length is between nine and fifteen. -/
lemma digitsRun_iff (l : List Char) :
    digitsRun l = true ↔
      (∀ c ∈ l, c.isDigit = true) ∧ 9 ≤ l.length ∧ l.length ≤ 15 := by
  simp [digitsRun, List.all_eq_true, Bool.and_eq_true, decide_eq_true_iff, and_assoc]

/-- The compiled phone matcher recognizes exactly the language the
specification describes. -/
lemma phoneMatch_iff (l : List Char) : phoneMatch l = true ↔ phoneSpec l := by
  constructor
  · intro h
    rw [phoneMatch.eq_def] at h
    rcases Bool.or_eq_true_iff.mp h with h | h
    · exact ⟨[], [], l, by simp, Or.inl rfl, Or.inl rfl, (digitsRun_iff l).mp h⟩
    · match l, h with
      | c :: r, h =>
        rcases Bool.or_eq_true_iff.mp h with h | h
        · rcases Bool.and_eq_true_iff.mp h with ⟨hc, hr⟩
          have hc1 : c = '1' := by simpa using hc
          subst hc1
          exact ⟨[], ['1'], r, by simp, Or.inl rfl, Or.inr rfl, (digitsRun_iff r).mp hr⟩
        · rcases Bool.and_eq_true_iff.mp h with ⟨hc, hr⟩
          have hcp : c = '+' := by simpa using hc
          subst hcp
          rcases Bool.or_eq_true_iff.mp hr with hr | hr
          · exact ⟨['+'], [], r, by simp, Or.inr rfl, Or.inl rfl, (digitsRun_iff r).mp hr⟩
          · match r, hr with
            | c2 :: r2, hr =>
              rcases Bool.and_eq_true_iff.mp hr with ⟨hc2, hr2⟩
              have hc21 : c2 = '1' := by simpa using hc2
              subst hc21
              exact ⟨['+'], ['1'], r2, by simp, Or.inr rfl, Or.inr rfl,
                (digitsRun_iff r2).mp hr2⟩
  · rintro ⟨p, o, d, rfl, hp, ho, hd⟩
    have hrun : digitsRun d = true := (digitsRun_iff d).mpr hd
    rcases hp with rfl | rfl <;> rcases ho with rfl | rfl <;>
      simp [phoneMatch, hrun]

/-- A character list in the phone language has at most seventeen entries. -/
lemma phoneSpec_length {l : List Char} (h : phoneSpec l) : l.length ≤ 17 := by
  rcases h with ⟨p, o, d, rfl, hp, ho, _, _, hlen⟩
  have hpl : p.length ≤ 1 := by rcases hp with rfl | rfl <;> simp
  have hol : o.length ≤ 1 := by rcases ho with rfl | rfl <;> simp
  simp only [List.length_append]
  omega

/-- C2 counterexample: the quote-request form accepts a letters-only phone
value even though it does not match the phone pattern, so the pattern rule
does not govern quote-request submissions. -/
theorem quote_phone_unchecked_counterexample :
    okB (cleanQuotePhone "abcdefghij") = true ∧
      phoneMatch ("abcdefghij").data = false := by decide

/-- C2 (amended): a provided (whitespace-trimmed) phone value passes the
contact-form phone field exactly when it matches the pattern of an optional
plus sign, an optional literal one, and nine to fifteen digits, while the
quote-request phone field performs no format check and accepts any provided
value of at most twenty characters. -/
theorem phone_validation_rules (s : String) (hs : pyStrip s = s) (hne : s ≠ "") :
    (okB (cleanContactPhone s) = true ↔ phoneSpec s.data) ∧
    (okB (cleanQuotePhone s) = true ↔ s.length ≤ 20) := by
  constructor
  · rw [cleanContactPhone]
    simp only [hs, if_neg hne]
    constructor
    · intro h
      by_cases h17 : 17 < s.length
      · simp [h17, okB] at h
      · by_cases hm : phoneMatch s.data
        · exact (phoneMatch_iff s.data).mp hm
        · simp [h17, hm, okB] at h
    · intro h
      have hm : phoneMatch s.data = true := (phoneMatch_iff s.data).mpr h
      have h17 : ¬ 17 < s.length := by
        have := phoneSpec_length h
        simp only [String.length]
        omega
      simp [h17, hm, okB]
  · rw [cleanQuotePhone, cleanChar]
    simp only [hs, if_neg hne]
    constructor
    · intro h
      by_cases h20 : 20 < s.length
      · simp [h20, okB] at h
      · omega
    · intro h
      have h20 : ¬ 20 < s.length := by omega
      simp [h20, okB]

/-- Witness for C2 at a concrete matching phone value. -/
theorem phone_validation_rules_witness :
    (pyStrip "+1234567890" = "+1234567890" ∧ "+1234567890" ≠ "") ∧
    ((okB (cleanContactPhone "+1234567890") = true ↔ phoneSpec ("+1234567890").data) ∧
     (okB (cleanQuotePhone "+1234567890") = true ↔ ("+1234567890" : String).length ≤ 20)) :=
  ⟨⟨by decide, by decide⟩,
    phone_validation_rules "+1234567890" (by decide) (by decide)⟩

/-- An entry of one field-error collector always carries that field name as
its key. -/
lemma collectErr_key {α : Type} (name : String) (e : Except String α)
    (p : String × String) (h : p ∈ collectErr name e) : p.1 = name := by
  cases e with
  | ok v => simp [collectErr] at h
  | error m =>
    simp only [collectErr, List.mem_singleton] at h
    rw [h]

/-- A failing field clean contributes its keyed entry to the collector. -/
lemma collectErr_mem {α : Type} (name m : String) {e : Except String α}
    (h : e = .error m) : (name, m) ∈ collectErr name e := by
  rw [h]
  simp [collectErr]

/-- C8 counterexample: a one-hundred-and-one-letter name contains an
alphabetic character but is rejected by the contact-form name field, so the
claim that any name with a letter is accepted fails. -/
theorem contact_name_long_counterexample :
    (String.mk (List.replicate 101 'a')).data.any (fun c => c.isAlpha) = true ∧
      okB (cleanContactName (String.mk (List.replicate 101 'a'))) = false := by
  decide

/-- C8 (amended): a provided (whitespace-trimmed) contact name containing at
least one letter is accepted when it is at most one hundred characters long,
and the stored value is its title-cased normalization; a name with no
alphabetic character is rejected. -/
theorem contact_name_rule (s : String) (hs : pyStrip s = s) :
    (s.data.any (fun c => c.isAlpha) = true → s.length ≤ 100 →
      cleanContactName s = .ok (pyTitle s)) ∧
    (s.data.any (fun c => c.isAlpha) = false → okB (cleanContactName s) = false) := by
  constructor
  · intro halpha hlen
    have hne : s ≠ "" := by
      intro h
      rw [h] at halpha
      simp at halpha
    have h100 : ¬ 100 < s.length := by omega
    have halpha2 : ∃ c ∈ s.data, c.isAlpha = true := by
      simpa [List.any_eq_true] using halpha
    rw [cleanContactName, cleanChar]
    simp [hs, hne, h100, halpha2]
  · intro halpha
    have halpha2 : ¬ ∃ c ∈ s.data, c.isAlpha = true := by
      rw [← List.any_eq_true, halpha]
      simp
    rw [cleanContactName, cleanChar]
    by_cases hne : s = ""
    · have h0 : pyStrip s = "" := by rw [hs, hne]
      simp [h0, okB]
    · by_cases h100 : 100 < s.length
      · simp [hs, hne, h100, okB]
      · simp [hs, hne, h100, halpha2, okB]

/-- Witness for C8: the name of a concrete lower-case submission is accepted
and stored in title case. -/
theorem contact_name_rule_witness :
    (pyStrip "john smith" = "john smith") ∧
    cleanContactName "john smith" = .ok "John Smith" := by
  have h := (contact_name_rule "john smith" (by decide)).1 (by decide) (by decide)
  exact ⟨by decide, by rw [h]; exact congrArg Except.ok (by decide)⟩

/-- The contact message field succeeds exactly when the (already trimmed)
body has at least ten characters and at least three whitespace-separated
words, and then returns the body unchanged. -/
lemma cleanContactMessage_iff (v : String) (hs : pyStrip v = v) :
    (okB (cleanContactMessage v) = true ↔
      10 ≤ v.length ∧ 3 ≤ (pyWords v).length) ∧
    (okB (cleanContactMessage v) = true → cleanContactMessage v = .ok v) := by
  by_cases hne : v = ""
  · have h0 : pyStrip v = "" := by rw [hs, hne]
    have hred : cleanContactMessage v = Except.error requiredMsg := by
      rw [cleanContactMessage, cleanChar]
      simp [h0]
    rw [hred]
    subst hne
    exact ⟨⟨fun h => by simp [okB] at h, fun h => absurd h.1 (by decide)⟩,
      fun h => by simp [okB] at h⟩
  · by_cases h10 : v.length < 10
    · have hred : cleanContactMessage v =
          Except.error "Ensure this value has at least the required number of characters." := by
        rw [cleanContactMessage, cleanChar]
        simp [hs, hne, h10]
      rw [hred]
      exact ⟨⟨fun h => by simp [okB] at h, fun h => by omega⟩,
        fun h => by simp [okB] at h⟩
    · by_cases h3 : (pyWords v).length < 3
      · have hred : cleanContactMessage v =
            Except.error "Please provide a more detailed message (at least 3 words)." := by
          rw [cleanContactMessage, cleanChar]
          simp [hs, hne, h10, h3]
        rw [hred]
        exact ⟨⟨fun h => by simp [okB] at h, fun h => by omega⟩,
          fun h => by simp [okB] at h⟩
      · have hred : cleanContactMessage v = Except.ok v := by
          rw [cleanContactMessage, cleanChar]
          simp [hs, hne, h10, h3]
        rw [hred]
        exact ⟨⟨fun _ => ⟨by omega, by omega⟩, fun _ => by simp [okB]⟩, fun _ => rfl⟩

/-- C6: a contact submission whose (trimmed) message body has fewer than ten
characters or fewer than three whitespace-separated words is rejected with an
error keyed to the message field and no ContactMessage row is written, while
a body with at least ten characters and at least three words passes the
message rule. -/
theorem contact_message_rule (sub : ContactSubmission) (store : List ContactMessage)
    (sendFails : Bool) (hs : pyStrip sub.message = sub.message) :
    (sub.message.length < 10 ∨ (pyWords sub.message).length < 3 →
      (∃ m, ("message", m) ∈ contactErrors sub) ∧
      (contactPost sub store sendFails).1 = store) ∧
    (10 ≤ sub.message.length ∧ 3 ≤ (pyWords sub.message).length →
      ∀ m, ("message", m) ∉ contactErrors sub) := by
  constructor
  · intro hshort
    have hbad : okB (cleanContactMessage sub.message) = false := by
      cases hb : okB (cleanContactMessage sub.message) with
      | false => rfl
      | true =>
        have hc := (cleanContactMessage_iff sub.message hs).1.mp hb
        rcases hshort with h | h <;> omega
    have herr : ∃ m, cleanContactMessage sub.message = .error m := by
      cases he : cleanContactMessage sub.message with
      | error m => exact ⟨m, rfl⟩
      | ok v =>
        rw [he] at hbad
        simp [okB] at hbad
    rcases herr with ⟨m, hm⟩
    have hmem : ("message", m) ∈ contactErrors sub := by
      rw [contactErrors]
      refine List.mem_append.mpr (Or.inl ?_)
      exact List.mem_append.mpr (Or.inr (collectErr_mem "message" m hm))
    refine ⟨⟨m, hmem⟩, ?_⟩
    have hne : contactErrors sub ≠ [] := List.ne_nil_of_mem hmem
    simp [contactPost, hne]
  · intro hlong m hmem
    have hok : cleanContactMessage sub.message = .ok sub.message :=
      (cleanContactMessage_iff sub.message hs).2
        ((cleanContactMessage_iff sub.message hs).1.mpr hlong)
    rw [contactErrors] at hmem
    rcases List.mem_append.mp hmem with hmem | h
    · rcases List.mem_append.mp hmem with hmem | h
      · rcases List.mem_append.mp hmem with hmem | h
        · rcases List.mem_append.mp hmem with hmem | h
          · rcases List.mem_append.mp hmem with hmem | h
            · rcases List.mem_append.mp hmem with h | h
              · exact absurd (collectErr_key _ _ _ h)
                  (by decide : ¬ ("message" : String) = "name")
              · exact absurd (collectErr_key _ _ _ h)
                  (by decide : ¬ ("message" : String) = "email")
            · exact absurd (collectErr_key _ _ _ h)
                (by decide : ¬ ("message" : String) = "phone")
          · exact absurd (collectErr_key _ _ _ h)
              (by decide : ¬ ("message" : String) = "company")
        · exact absurd (collectErr_key _ _ _ h)
            (by decide : ¬ ("message" : String) = "subject")
      · rw [hok] at h
        simp [collectErr] at h
    · exact absurd (collectErr_key _ _ _ h)
        (by decide : ¬ ("message" : String) = "privacy_agreement")

/-- Witness for C6: a two-character message is rejected with a message-field
error and nothing is persisted. -/
theorem contact_message_rule_witness :
    (pyStrip "hi" = "hi") ∧
    (((("hi" : String).length < 10 ∨ (pyWords "hi").length < 3 →
      (∃ m, ("message", m) ∈ contactErrors
        ⟨"John Smith", "john@example.com", "", "", "general", "hi", true⟩) ∧
      (contactPost ⟨"John Smith", "john@example.com", "", "", "general", "hi", true⟩
        [] false).1 = []) ∧
    (10 ≤ ("hi" : String).length ∧ 3 ≤ (pyWords "hi").length →
      ∀ m, ("message", m) ∉ contactErrors
        ⟨"John Smith", "john@example.com", "", "", "general", "hi", true⟩))) :=
  ⟨by decide,
    contact_message_rule
      ⟨"John Smith", "john@example.com", "", "", "general", "hi", true⟩ [] false (by decide)⟩

/-- C4: for a contact submission that validates, the handler persists the
ContactMessage and answers with the success redirect, and its result is
identical whether the notification send fails or succeeds, so a mail failure
is never surfaced and never rolls the write back. -/
theorem contact_mail_failure_isolated (sub : ContactSubmission)
    (store : List ContactMessage) (h : contactErrors sub = []) :
    contactPost sub store true =
      (store ++ [mkContactMessage sub], .redirectContact contactSuccessFlash) ∧
    contactPost sub store true = contactPost sub store false := by
  constructor <;> simp [contactPost, h]

/-- Witness for C4: a concrete valid submission is persisted and answered
with the success redirect under a failing mail send. -/
theorem contact_mail_failure_isolated_witness :
    contactPost
      ⟨"John Smith", "john@example.com", "+1234567890", "", "general",
        "I would like to order some potatoes please", true⟩ [] true =
      ([mkContactMessage
        ⟨"John Smith", "john@example.com", "+1234567890", "", "general",
          "I would like to order some potatoes please", true⟩],
        .redirectContact contactSuccessFlash) ∧
    contactPost
      ⟨"John Smith", "john@example.com", "+1234567890", "", "general",
        "I would like to order some potatoes please", true⟩ [] true =
      contactPost
      ⟨"John Smith", "john@example.com", "+1234567890", "", "general",
        "I would like to order some potatoes please", true⟩ [] false :=
  contact_mail_failure_isolated
    ⟨"John Smith", "john@example.com", "+1234567890", "", "general",
      "I would like to order some potatoes please", true⟩ [] (by decide)

/-- A required character field rejects a value that strips to nothing. -/
lemma cleanChar_required_empty (maxLen minLen : Option Nat) (v : String)
    (h : pyStrip v = "") : cleanChar true maxLen minLen v = .error requiredMsg := by
  rw [cleanChar.eq_def]
  simp [h]

/-- The e-mail field rejects a value that strips to nothing. -/
lemma cleanEmail_empty (v : String) (h : pyStrip v = "") :
    cleanEmail v = .error requiredMsg := by
  rw [cleanEmail]
  simp [h]

/-- The date field rejects a value that strips to nothing. -/
lemma cleanDate_empty (v : String) (h : pyStrip v = "") :
    cleanDate v = .error requiredMsg := by
  rw [cleanDate]
  simp [h]

/-- The quote phone field rejects a value that strips to nothing. -/
lemma cleanQuotePhone_empty (v : String) (h : pyStrip v = "") :
    cleanQuotePhone v = .error requiredMsg := by
  rw [cleanQuotePhone]
  exact cleanChar_required_empty (some 20) none v h

/-- A choice field whose declared choices all strip to nonempty values
rejects any value that strips to nothing. -/
lemma cleanChoice_strip_empty (choices : List String) (v : String)
    (hch : ∀ c ∈ choices, pyStrip c ≠ "") (h : pyStrip v = "") :
    ∃ m, cleanChoice choices v = .error m := by
  rw [cleanChoice]
  by_cases hv : v = ""
  · exact ⟨requiredMsg, by simp [hv]⟩
  · have hnm : v ∉ choices := fun hvm => hch v hvm h
    exact ⟨"Select a valid choice.", by simp [hv, hnm]⟩

/-- C5: a quote-request POST in which any required field is missing or empty
is answered with success false and an error mapping holding an entry keyed by
that field, and no QuoteRequest row is created. -/
theorem quote_missing_required_field (sub : QuoteSubmission)
    (store : List QuoteRequest) (sendFails : Bool) (f : QField)
    (h : pyStrip (qfieldRaw sub f) = "") :
    (quotePost sub store sendFails).2.success = false ∧
    (quotePost sub store sendFails).2.errors = some (quoteErrors sub) ∧
    (∃ m, (qfieldName f, m) ∈ quoteErrors sub) ∧
    (quotePost sub store sendFails).1 = store := by
  have hmem : ∃ m, (qfieldName f, m) ∈ quoteErrors sub := by
    cases f with
    | company_name =>
      refine ⟨requiredMsg, ?_⟩
      rw [quoteErrors]
      have hc := collectErr_mem "company_name" requiredMsg
        (cleanChar_required_empty (some 100) none sub.company_name h)
      exact List.mem_append_left _ (List.mem_append_left _ (List.mem_append_left _
        (List.mem_append_left _ (List.mem_append_left _ (List.mem_append_left _
        (List.mem_append_left _ (List.mem_append_left _ hc)))))))
    | contact_person =>
      refine ⟨requiredMsg, ?_⟩
      rw [quoteErrors]
      have hc := collectErr_mem "contact_person" requiredMsg
        (cleanChar_required_empty (some 100) none sub.contact_person h)
      exact List.mem_append_left _ (List.mem_append_left _ (List.mem_append_left _
        (List.mem_append_left _ (List.mem_append_left _ (List.mem_append_left _
        (List.mem_append_left _ (List.mem_append_right _ hc)))))))
    | email =>
      refine ⟨requiredMsg, ?_⟩
      rw [quoteErrors]
      have hc := collectErr_mem "email" requiredMsg (cleanEmail_empty sub.email h)
      exact List.mem_append_left _ (List.mem_append_left _ (List.mem_append_left _
        (List.mem_append_left _ (List.mem_append_left _ (List.mem_append_left _
        (List.mem_append_right _ hc))))))
    | phone =>
      refine ⟨requiredMsg, ?_⟩
      rw [quoteErrors]
      have hc := collectErr_mem "phone" requiredMsg (cleanQuotePhone_empty sub.phone h)
      exact List.mem_append_left _ (List.mem_append_left _ (List.mem_append_left _
        (List.mem_append_left _ (List.mem_append_left _ (List.mem_append_right _ hc)))))
    | variety =>
      rcases cleanChoice_strip_empty quoteVarieties sub.variety
        (by decide) h with ⟨m, hm⟩
      refine ⟨m, ?_⟩
      rw [quoteErrors]
      have hc := collectErr_mem "variety" m hm
      exact List.mem_append_left _ (List.mem_append_left _ (List.mem_append_left _
        (List.mem_append_left _ (List.mem_append_right _ hc))))
    | quantity_range =>
      rcases cleanChoice_strip_empty quoteQuantities sub.quantity_range
        (by decide) h with ⟨m, hm⟩
      refine ⟨m, ?_⟩
      rw [quoteErrors]
      have hc := collectErr_mem "quantity_range" m hm
      exact List.mem_append_left _ (List.mem_append_left _ (List.mem_append_left _
        (List.mem_append_right _ hc)))
    | delivery_location =>
      refine ⟨requiredMsg, ?_⟩
      rw [quoteErrors]
      have hc := collectErr_mem "delivery_location" requiredMsg
        (cleanChar_required_empty (some 200) none sub.delivery_location h)
      exact List.mem_append_left _ (List.mem_append_left _ (List.mem_append_right _ hc))
    | delivery_date =>
      refine ⟨requiredMsg, ?_⟩
      rw [quoteErrors]
      have hc := collectErr_mem "delivery_date" requiredMsg
        (cleanDate_empty sub.delivery_date h)
      exact List.mem_append_left _ (List.mem_append_right _ hc)
  rcases hmem with ⟨m, hm⟩
  have hne : quoteErrors sub ≠ [] := List.ne_nil_of_mem hm
  exact ⟨by simp [quotePost, hne], by simp [quotePost, hne], ⟨m, hm⟩,
    by simp [quotePost, hne]⟩

/-- Witness for C5: the all-empty submission is rejected with an entry for
the delivery location and creates nothing. -/
theorem quote_missing_required_field_witness :
    ((quotePost ⟨"", "", "", "", "", "", "", "", ""⟩ [] false).2.success = false ∧
    (quotePost ⟨"", "", "", "", "", "", "", "", ""⟩ [] false).2.errors =
      some (quoteErrors ⟨"", "", "", "", "", "", "", "", ""⟩) ∧
    (∃ m, ("delivery_location", m) ∈ quoteErrors ⟨"", "", "", "", "", "", "", "", ""⟩) ∧
    (quotePost ⟨"", "", "", "", "", "", "", "", ""⟩ [] false).1 = []) :=
  quote_missing_required_field ⟨"", "", "", "", "", "", "", "", ""⟩ [] false
    .delivery_location (by decide)

/-- The upsert skips over a leading row with a different e-mail. -/
lemma newsletterUpsert_cons_ne (a : Newsletter) (rest : List Newsletter)
    (now : Nat) (e : String) (ints : List String)
    (ha : (a.email == e) = false) :
    newsletterUpsert (a :: rest) now e ints =
      ((a :: (newsletterUpsert rest now e ints).1),
        (newsletterUpsert rest now e ints).2) := by
  have hf : List.find? (fun r => r.email == e) (a :: rest) =
      List.find? (fun r => r.email == e) rest := by
    simp [List.find?, ha]
  cases hrest : List.find? (fun r => r.email == e) rest with
  | none => simp [newsletterUpsert, findEmail, hf, hrest, updateFirst]
  | some r0 => simp [newsletterUpsert, findEmail, hf, hrest, updateFirst, ha]

/-- After an upsert into a table holding at most one row with the given
e-mail, exactly one row with that e-mail exists, and it carries the submitted
interests and the active flag. -/
lemma newsletterUpsert_result (now : Nat) (e : String) (ints : List String) :
    ∀ store : List Newsletter, countEmail store e ≤ 1 →
      countEmail (newsletterUpsert store now e ints).1 e = 1 ∧
      ∀ r ∈ (newsletterUpsert store now e ints).1, r.email = e →
        r.interests = ints ∧ r.is_active = true := by
  intro store
  induction store with
  | nil =>
    intro _
    constructor
    · simp [newsletterUpsert, findEmail, countEmail]
    · intro r hr hre
      simp [newsletterUpsert, findEmail] at hr
      subst hr
      exact ⟨rfl, rfl⟩
  | cons a rest ih =>
    intro hc
    cases ha : a.email == e with
    | true =>
      have hup : newsletterUpsert (a :: rest) now e ints =
          (({ a with interests := ints, is_active := true }) :: rest, false) := by
        simp [newsletterUpsert, findEmail, List.find?, ha, updateFirst]
      have hccons : countEmail (a :: rest) e = 1 + countEmail rest e := by
        simp [countEmail, List.filter_cons, ha]
        omega
      have hcrest : countEmail rest e = 0 := by omega
      have hnone : ∀ r ∈ rest, r.email ≠ e := by
        intro r hr hre
        have hmemf : r ∈ rest.filter (fun x => x.email == e) := by
          simp [List.mem_filter, hr, hre]
        have h0 : rest.filter (fun x => x.email == e) = [] :=
          List.length_eq_zero.mp hcrest
        rw [h0] at hmemf
        simp at hmemf
      rw [hup]
      constructor
      · have step : countEmail (({ a with interests := ints, is_active := true }) :: rest) e
            = 1 + countEmail rest e := by
          simp [countEmail, List.filter_cons, ha]
          omega
        rw [step, hcrest]
      · intro r hr hre
        rcases List.mem_cons.mp hr with rfl | hr
        · exact ⟨rfl, rfl⟩
        · exact absurd hre (hnone r hr)
    | false =>
      rw [newsletterUpsert_cons_ne a rest now e ints ha]
      have hccons : countEmail (a :: rest) e = countEmail rest e := by
        simp [countEmail, List.filter_cons, ha]
      obtain ⟨h1, h2⟩ := ih (by omega)
      constructor
      · simp only [countEmail, List.filter_cons, ha] at h1 ⊢
        simpa using h1
      · intro r hr hre
        rcases List.mem_cons.mp hr with rfl | hr
        · exact absurd hre (by simpa using ha)
        · exact h2 r hr hre

/-- A valid newsletter submission produces no field errors and its cleaned
values are the submitted ones. -/
lemma newsletterErrors_ok (e : String) (X : List String) (he : pyStrip e = e)
    (hv : validEmail e = true)
    (hX : X.all (fun i => newsletterChoices.contains i) = true) :
    newsletterErrors ⟨some e, some X⟩ = [] ∧
    cleanEmail e = .ok e ∧ cleanInterests (some X) = .ok X := by
  have hne : e ≠ "" := by
    intro h
    rw [h] at hv
    exact absurd hv (by decide)
  have h1 : cleanEmail e = .ok e := by
    rw [cleanEmail]
    simp [he, hne, hv]
  have h2 : cleanInterests (some X) = .ok X := by
    rw [cleanInterests, if_pos hX]
  refine ⟨?_, h1, h2⟩
  rw [newsletterErrors]
  simp [collectErr, h1, h2]

/-- On a valid submission the newsletter handler updates the table exactly as
the e-mail-keyed upsert does. -/
lemma newsletterPost_valid (store : List Newsletter) (now : Nat) (e : String)
    (X : List String) (he : pyStrip e = e) (hv : validEmail e = true)
    (hX : X.all (fun i => newsletterChoices.contains i) = true) :
    (newsletterPost store now (.json ⟨some e, some X⟩)).1 =
      (newsletterUpsert store now e X).1 := by
  obtain ⟨herr, h1, h2⟩ := newsletterErrors_ok e X he hv hX
  simp only [newsletterPost, herr, if_pos]
  simp only [Option.getD_some, h1, h2, exVal, Except.toOption]
  rcases hup : newsletterUpsert store now e X with ⟨st2, b⟩
  cases b <;> simp [hup]

/-- Replacing the first row with a given e-mail by an e-mail-preserving
update leaves the number of rows with that e-mail unchanged. -/
lemma countEmail_updateFirst (e : String) (f : Newsletter → Newsletter)
    (hf : ∀ r, (f r).email = r.email) :
    ∀ store, countEmail (updateFirst e f store) e = countEmail store e := by
  intro store
  induction store with
  | nil => rfl
  | cons a rest ih =>
    cases ha : a.email == e with
    | true =>
      have hfa : ((f a).email == e) = true := by
        rw [hf a]
        exact ha
      simp [updateFirst, ha, countEmail, List.filter_cons, hfa]
    | false =>
      simp only [updateFirst, ha, Bool.false_eq_true, if_false]
      simp only [countEmail, List.filter_cons, ha] at ih ⊢
      simpa using ih

/-- C3: subscribing twice with the same e-mail, first with interests A and
then with interests B, leaves exactly one newsletter row for that e-mail,
carrying the second interest set with the active flag on, even when the row
was deactivated between the two signups. -/
theorem newsletter_double_signup (st0 : List Newsletter) (nowA nowB : Nat)
    (e : String) (A B : List String) (d : Bool)
    (he : pyStrip e = e) (hv : validEmail e = true)
    (hA : A.all (fun i => newsletterChoices.contains i) = true)
    (hB : B.all (fun i => newsletterChoices.contains i) = true)
    (hc : countEmail st0 e ≤ 1) :
    countEmail (newsletterPost
        (if d then deactivate e (newsletterPost st0 nowA (.json ⟨some e, some A⟩)).1
         else (newsletterPost st0 nowA (.json ⟨some e, some A⟩)).1)
        nowB (.json ⟨some e, some B⟩)).1 e = 1 ∧
    ∀ r ∈ (newsletterPost
        (if d then deactivate e (newsletterPost st0 nowA (.json ⟨some e, some A⟩)).1
         else (newsletterPost st0 nowA (.json ⟨some e, some A⟩)).1)
        nowB (.json ⟨some e, some B⟩)).1,
      r.email = e → r.interests = B ∧ r.is_active = true := by
  have hst1 : (newsletterPost st0 nowA (.json ⟨some e, some A⟩)).1 =
      (newsletterUpsert st0 nowA e A).1 := newsletterPost_valid st0 nowA e A he hv hA
  have hc1 : countEmail (newsletterPost st0 nowA (.json ⟨some e, some A⟩)).1 e = 1 := by
    rw [hst1]
    exact (newsletterUpsert_result nowA e A st0 hc).1
  have hc1d : countEmail
      (if d then deactivate e (newsletterPost st0 nowA (.json ⟨some e, some A⟩)).1
       else (newsletterPost st0 nowA (.json ⟨some e, some A⟩)).1) e = 1 := by
    cases d with
    | false => simpa using hc1
    | true =>
      rw [if_pos rfl, deactivate,
        countEmail_updateFirst e (fun r => { r with is_active := false }) (fun r => rfl)]
      exact hc1
  rw [newsletterPost_valid _ nowB e B he hv hB]
  exact newsletterUpsert_result nowB e B _ (by omega)

/-- Witness for C3 at a concrete double signup with an intervening
deactivation. -/
theorem newsletter_double_signup_witness :
    countEmail (newsletterPost
        (if true then
          deactivate "a@b.com"
            (newsletterPost [] 1 (.json ⟨some "a@b.com", some ["products"]⟩)).1
         else (newsletterPost [] 1 (.json ⟨some "a@b.com", some ["products"]⟩)).1)
        2 (.json ⟨some "a@b.com", some ["prices"]⟩)).1 "a@b.com" = 1 ∧
    ∀ r ∈ (newsletterPost
        (if true then
          deactivate "a@b.com"
            (newsletterPost [] 1 (.json ⟨some "a@b.com", some ["products"]⟩)).1
         else (newsletterPost [] 1 (.json ⟨some "a@b.com", some ["products"]⟩)).1)
        2 (.json ⟨some "a@b.com", some ["prices"]⟩)).1,
      r.email = "a@b.com" → r.interests = ["prices"] ∧ r.is_active = true :=
  newsletter_double_signup [] 1 2 "a@b.com" ["products"] ["prices"] true
    (by decide) (by decide) (by decide) (by decide) (by decide)

/-- Replacing the first row with a given e-mail preserves the table length. -/
lemma updateFirst_length (e : String) (f : Newsletter → Newsletter) :
    ∀ store : List Newsletter, (updateFirst e f store).length = store.length := by
  intro store
  induction store with
  | nil => rfl
  | cons a rest ih =>
    cases ha : a.email == e with
    | true => simp [updateFirst, ha]
    | false => simp [updateFirst, ha, ih]

/-- Replacing the first row with a given e-mail by an update that preserves
the e-mail and subscription-time columns changes no row position except,
at most, those two-column-preserving updates of the matching row; rows with
a different e-mail are untouched. -/
lemma updateFirst_fields (e : String) (f : Newsletter → Newsletter)
    (hf : ∀ r, (f r).email = r.email ∧ (f r).subscribed_at = r.subscribed_at) :
    ∀ (store : List Newsletter) (i : Nat),
      ((updateFirst e f store)[i]?).map Newsletter.email =
        (store[i]?).map Newsletter.email ∧
      ((updateFirst e f store)[i]?).map Newsletter.subscribed_at =
        (store[i]?).map Newsletter.subscribed_at ∧
      (∀ r, store[i]? = some r → r.email ≠ e →
        (updateFirst e f store)[i]? = some r) := by
  intro store
  induction store with
  | nil => intro i; simp [updateFirst]
  | cons a rest ih =>
    intro i
    cases ha : a.email == e with
    | true =>
      simp only [updateFirst, ha, if_true]
      cases i with
      | zero =>
        refine ⟨by simp [(hf a).1], by simp [(hf a).2], ?_⟩
        intro r hr hre
        simp only [List.getElem?_cons_zero, Option.some.injEq] at hr
        exact absurd (hr ▸ (by simpa using ha)) hre
      | succ j =>
        refine ⟨by simp, by simp, ?_⟩
        intro r hr _
        simpa using hr
    | false =>
      simp only [updateFirst, ha, Bool.false_eq_true, if_false]
      cases i with
      | zero => simp
      | succ j => simpa using ih j

/-- C10: when a newsletter signup hits an existing e-mail, the upsert
reports no creation, keeps the table length, preserves the e-mail and the
original subscription timestamp at every position, and leaves every row with
a different e-mail entirely unchanged. -/
theorem newsletter_upsert_frame (store : List Newsletter) (now : Nat)
    (e : String) (ints : List String)
    (h : (findEmail store e).isSome = true) :
    (newsletterUpsert store now e ints).2 = false ∧
    (newsletterUpsert store now e ints).1.length = store.length ∧
    ∀ i : Nat,
      (((newsletterUpsert store now e ints).1)[i]?).map Newsletter.email =
        (store[i]?).map Newsletter.email ∧
      (((newsletterUpsert store now e ints).1)[i]?).map Newsletter.subscribed_at =
        (store[i]?).map Newsletter.subscribed_at ∧
      (∀ r, store[i]? = some r → r.email ≠ e →
        ((newsletterUpsert store now e ints).1)[i]? = some r) := by
  cases hfind : findEmail store e with
  | none => rw [hfind] at h; simp at h
  | some r0 =>
    have hup : newsletterUpsert store now e ints =
        (updateFirst e (fun r => { r with interests := ints, is_active := true }) store,
          false) := by
      simp [newsletterUpsert, findEmail] at hfind ⊢
      simp [hfind]
    rw [hup]
    exact ⟨rfl, updateFirst_length e _ store,
      updateFirst_fields e (fun r => { r with interests := ints, is_active := true })
        (fun r => ⟨rfl, rfl⟩) store⟩

/-- Witness for C10 on a concrete one-row table whose subscription is
re-submitted with new interests. -/
theorem newsletter_upsert_frame_witness :
    (newsletterUpsert [⟨"a@b.com", ["products"], 5, false⟩] 9 "a@b.com" ["prices"]).2 = false ∧
    (newsletterUpsert [⟨"a@b.com", ["products"], 5, false⟩] 9 "a@b.com" ["prices"]).1.length =
      ([⟨"a@b.com", ["products"], 5, false⟩] : List Newsletter).length ∧
    ∀ i : Nat,
      (((newsletterUpsert [⟨"a@b.com", ["products"], 5, false⟩] 9 "a@b.com" ["prices"]).1)[i]?).map
          Newsletter.email =
        (([⟨"a@b.com", ["products"], 5, false⟩] : List Newsletter)[i]?).map Newsletter.email ∧
      (((newsletterUpsert [⟨"a@b.com", ["products"], 5, false⟩] 9 "a@b.com" ["prices"]).1)[i]?).map
          Newsletter.subscribed_at =
        (([⟨"a@b.com", ["products"], 5, false⟩] : List Newsletter)[i]?).map
          Newsletter.subscribed_at ∧
      (∀ r, ([⟨"a@b.com", ["products"], 5, false⟩] : List Newsletter)[i]? = some r →
        r.email ≠ "a@b.com" →
        ((newsletterUpsert [⟨"a@b.com", ["products"], 5, false⟩] 9 "a@b.com" ["prices"]).1)[i]? =
          some r) :=
  newsletter_upsert_frame [⟨"a@b.com", ["products"], 5, false⟩] 9 "a@b.com" ["prices"]
    (by decide)

/-- A decimal digit below ten maps to a digit character. -/
lemma digitChar_isDigit {d : Nat} (h : d < 10) :
    (Char.ofNat (48 + d)).isDigit = true := by
  interval_cases d <;> decide

/-- The digit character of a decimal digit parses back to that digit. -/
lemma digitChar_toNat {d : Nat} (h : d < 10) :
    (Char.ofNat (48 + d)).toNat - 48 = d := by
  interval_cases d <;> decide

/-- The digit fold distributes over list append. -/
lemma parseDigitsAux_append (acc : Nat) (l1 l2 : List Char) :
    parseDigitsAux acc (l1 ++ l2) =
      match parseDigitsAux acc l1 with
      | none => none
      | some a => parseDigitsAux a l2 := by
  induction l1 generalizing acc with
  | nil => rfl
  | cons c cs ih =>
    by_cases h : c.isDigit
    · simp [parseDigitsAux, h, ih]
    · simp [parseDigitsAux, h]

/-- The digit fold continues from an intermediate successful value. -/
lemma parseDigitsAux_append_some (acc a : Nat) (l1 l2 : List Char)
    (h : parseDigitsAux acc l1 = some a) :
    parseDigitsAux acc (l1 ++ l2) = parseDigitsAux a l2 := by
  rw [parseDigitsAux_append, h]

/-- Folding one digit character multiplies the accumulator by ten and adds
the digit. -/
lemma parseDigitsAux_digit (d : Nat) (hd : d < 10) (acc : Nat) :
    parseDigitsAux acc [Char.ofNat (48 + d)] = some (10 * acc + d) := by
  simp [parseDigitsAux, digitChar_isDigit hd, digitChar_toNat hd]

/-- The digit fold evaluates the fueled decimal representation exactly. -/
lemma parse_natDigitsAux :
    ∀ (fuel n acc : Nat), n < 10 ^ fuel →
      parseDigitsAux acc (natDigitsAux fuel n) =
        some (acc * 10 ^ (natDigitsAux fuel n).length + n) := by
  intro fuel
  induction fuel with
  | zero =>
    intro n acc h
    have hn : n = 0 := by
      simp only [pow_zero] at h
      omega
    subst hn
    simp [natDigitsAux, parseDigitsAux]
  | succ fuel ih =>
    intro n acc h
    by_cases h10 : n < 10
    · simp only [natDigitsAux, if_pos h10]
      rw [parseDigitsAux_digit n h10 acc]
      simp only [List.length_singleton, pow_one]
      congr 1
      omega
    · simp only [natDigitsAux, if_neg h10]
      have hdiv : n / 10 < 10 ^ fuel := by
        rw [Nat.div_lt_iff_lt_mul (by norm_num)]
        calc n < 10 ^ (fuel + 1) := h
          _ = 10 ^ fuel * 10 := by rw [pow_succ]
      rw [parseDigitsAux_append_some acc _ _ _ (ih (n / 10) acc hdiv)]
      rw [parseDigitsAux_digit (n % 10) (Nat.mod_lt _ (by norm_num)) _]
      have hmod := Nat.div_add_mod n 10
      rw [List.length_append, List.length_singleton]
      congr 1
      set L := (natDigitsAux fuel (n / 10)).length with hL
      calc 10 * (acc * 10 ^ L + n / 10) + n % 10
          = acc * (10 ^ L * 10) + (10 * (n / 10) + n % 10) := by ring
        _ = acc * 10 ^ (L + 1) + n := by rw [hmod, pow_succ]

/-- The fueled decimal representation is never empty when fuel remains. -/
lemma natDigitsAux_ne_nil (fuel n : Nat) : natDigitsAux (fuel + 1) n ≠ [] := by
  simp only [natDigitsAux]
  split <;> simp

/-- Every character of the fueled decimal representation is a digit. -/
lemma natDigitsAux_digits :
    ∀ fuel n, n < 10 ^ fuel → ∀ c ∈ natDigitsAux fuel n, c.isDigit = true := by
  intro fuel
  induction fuel with
  | zero =>
    intro n h c hc
    have hn : n = 0 := by
      simp only [pow_zero] at h
      omega
    subst hn
    simp [natDigitsAux] at hc
  | succ fuel ih =>
    intro n h c hc
    simp only [natDigitsAux] at hc
    split at hc
    · next h10 =>
      simp only [List.mem_singleton] at hc
      subst hc
      exact digitChar_isDigit h10
    · next h10 =>
      rw [List.mem_append] at hc
      rcases hc with hc | hc
      · have hdiv : n / 10 < 10 ^ fuel := by
          rw [Nat.div_lt_iff_lt_mul (by norm_num)]
          calc n < 10 ^ (fuel + 1) := h
            _ = 10 ^ fuel * 10 := by rw [pow_succ]
        exact ih (n / 10) hdiv c hc
      · simp only [List.mem_singleton] at hc
        subst hc
        exact digitChar_isDigit (Nat.mod_lt _ (by norm_num))

/-- Every natural number is below ten to its own successor. -/
lemma lt_ten_pow_succ (n : Nat) : n < 10 ^ (n + 1) :=
  lt_of_lt_of_le (Nat.lt_pow_self (by norm_num) n)
    (Nat.pow_le_pow_right (by norm_num) (Nat.le_succ n))

/-- The digit fold evaluates the decimal representation exactly. -/
lemma parse_natDigits (n acc : Nat) :
    parseDigitsAux acc (natDigits n) =
      some (acc * 10 ^ (natDigits n).length + n) :=
  parse_natDigitsAux (n + 1) n acc (lt_ten_pow_succ n)

/-- The decimal representation is never empty. -/
lemma natDigits_ne_nil (n : Nat) : natDigits n ≠ [] := natDigitsAux_ne_nil n n

/-- Every character of the decimal representation is a digit. -/
lemma natDigits_digits (n : Nat) : ∀ c ∈ natDigits n, c.isDigit = true :=
  natDigitsAux_digits (n + 1) n (lt_ten_pow_succ n)

/-- Leading zero padding does not change the folded value. -/
lemma parse_zeros : ∀ z : Nat, parseDigitsAux 0 (List.replicate z '0') = some 0 := by
  intro z
  induction z with
  | zero => rfl
  | succ z ih =>
    rw [List.replicate_succ]
    have h1 : ('0' : Char).isDigit = true := by decide
    have h2 : 10 * 0 + (('0' : Char).toNat - 48) = 0 := by decide
    simp only [parseDigitsAux, h1, if_true, h2]
    exact ih

/-- A digit character is not a dash. -/
lemma isDigit_ne_dash {c : Char} (h : c.isDigit = true) : (c != '-') = true := by
  rcases eq_or_ne c '-' with rfl | hne
  · exact absurd h (by decide)
  · simpa [bne_iff_ne] using hne

/-- Scanning up to the first dash recovers the dash-free prefix. -/
lemma takeWhile_no_dash (L M : List Char) (h : ∀ c ∈ L, (c != '-') = true) :
    (L ++ '-' :: M).takeWhile (fun c => c != '-') = L := by
  induction L with
  | nil => simp [List.takeWhile_cons]
  | cons c cs ih =>
    have hc : (c != '-') = true := h c (by simp)
    simp only [List.cons_append, List.takeWhile_cons, hc, if_true]
    rw [ih (fun x hx => h x (by simp [hx]))]

/-- The character data of a formatted invoice number. -/
lemma invFormat_data (n : Nat) :
    (invFormat n).data =
      'I' :: 'N' :: 'V' :: '-' ::
        (List.replicate (5 - (natDigits n).length) '0' ++ natDigits n) := rfl

/-- A formatted invoice number is never the empty string. -/
lemma invFormat_ne_empty (n : Nat) : invFormat n ≠ "" := by
  intro h
  have h2 := congrArg String.data h
  rw [invFormat_data] at h2
  have h3 : ("" : String).data = [] := rfl
  rw [h3] at h2
  simp at h2

/-- The suffix of a formatted invoice number after its last dash is exactly
the padded decimal field. -/
lemma afterLastDash_invFormat (n : Nat) :
    (afterLastDash (invFormat n)).data =
      List.replicate (5 - (natDigits n).length) '0' ++ natDigits n := by
  have hmem : ∀ c ∈ (List.replicate (5 - (natDigits n).length) '0' ++
      natDigits n).reverse, (c != '-') = true := by
    intro c hc
    rw [List.mem_reverse, List.mem_append] at hc
    rcases hc with hc | hc
    · rw [List.eq_of_mem_replicate hc]
      decide
    · exact isDigit_ne_dash (natDigits_digits n c hc)
  show ((invFormat n).data.reverse.takeWhile (fun c => c != '-')).reverse = _
  rw [invFormat_data]
  have hrev : ('I' :: 'N' :: 'V' :: '-' ::
      (List.replicate (5 - (natDigits n).length) '0' ++ natDigits n)).reverse =
      (List.replicate (5 - (natDigits n).length) '0' ++ natDigits n).reverse ++
        '-' :: ['V', 'N', 'I'] := by
    simp
  rw [hrev, takeWhile_no_dash _ _ hmem, List.reverse_reverse]

/-- Round trip: the parse performed by `Sale.save` on a formatted invoice
number recovers the sequence number. -/
lemma parseTrailing_invFormat (n : Nat) : parseTrailing (invFormat n) = some n := by
  rw [parseTrailing, afterLastDash_invFormat, parseDigits]
  have hne : ¬ (List.replicate (5 - (natDigits n).length) '0' ++
      natDigits n).isEmpty = true := by
    simp [List.isEmpty_iff, natDigits_ne_nil n]
  rw [if_neg hne, parseDigitsAux_append_some 0 0 _ _ (parse_zeros _), parse_natDigits]
  simp

/-- Appending a sale with a strictly larger id makes it the row returned by
the greatest-id query. -/
lemma lastById_append_last (l : List Sale) (a : Sale)
    (h : ∀ x ∈ l, x.id < a.id) : lastById (l ++ [a]) = some a := by
  induction l with
  | nil => rfl
  | cons s rest ih =>
    have hs : s.id < a.id := h s (by simp)
    have hrest := ih (fun x hx => h x (by simp [hx]))
    simp only [List.cons_append, lastById, List.append_eq, hrest]
    rw [if_neg (show ¬ s.id > a.id by omega)]

/-- The run creating `n` sales from the empty table succeeds and yields the
rows with ids one through `n` and sequential invoice numbers. -/
lemma createEmptyN_eq : ∀ n : Nat,
    createEmptyN n = some ⟨(List.range n).map invSale, n + 1⟩ := by
  intro n
  induction n with
  | zero => rfl
  | succ m ih =>
    simp only [createEmptyN, ih]
    cases m with
    | zero => decide
    | succ k =>
      have hlast : lastById ((List.range (k + 1)).map invSale) = some (invSale k) := by
        have hsplit : (List.range (k + 1)).map invSale =
            ((List.range k).map invSale) ++ [invSale k] := by
          rw [List.range_succ, List.map_append]
          rfl
        rw [hsplit]
        apply lastById_append_last
        intro x hx
        simp only [List.mem_map, List.mem_range] at hx
        rcases hx with ⟨i, hi, rfl⟩
        simp only [invSale]
        omega
      have hassign : assignInvoice ((List.range (k + 1)).map invSale) ⟨0, ""⟩ =
          some ⟨0, invFormat (k + 2)⟩ := by
        rw [assignInvoice]
        simp only [if_pos rfl, hlast, invSale]
        rw [if_neg (invFormat_ne_empty (k + 1)), parseTrailing_invFormat]
        simp
      rw [saveNewSale, hassign]
      have hsplit2 : (List.range (k + 2)).map invSale =
          ((List.range (k + 1)).map invSale) ++ [invSale (k + 1)] := by
        rw [List.range_succ, List.map_append]
        rfl
      rw [hsplit2]
      rfl

/-- C1: in a single-threaded run creating sales successively from the empty
table, none with an explicit invoice number, the k-th created sale (zero
based) is assigned invoice number INV- followed by k+1 zero-padded to five
digits, and the assignment step of `Sale.save` never alters a record whose
invoice number is already set, so later saves keep it. -/
theorem sale_invoice_sequence (n k : Nat) (hk : k < n) :
    ∃ st : SaleStore, createEmptyN n = some st ∧ st.sales.length = n ∧
      st.sales[k]? = some ⟨k + 1, invFormat (k + 1)⟩ ∧
      ∀ (existing : List Sale) (s : Sale), s.invoice_number ≠ "" →
        assignInvoice existing s = some s := by
  refine ⟨⟨(List.range n).map invSale, n + 1⟩, createEmptyN_eq n, by simp, ?_, ?_⟩
  · show ((List.range n).map invSale)[k]? = some ⟨k + 1, invFormat (k + 1)⟩
    rw [List.getElem?_map, List.getElem?_range hk]
    rfl
  · intro existing s h
    rw [assignInvoice, if_neg h]

/-- Witness for C1: the first three creations receive INV-00001 through
INV-00003, and the third row is INV-00003. -/
theorem sale_invoice_sequence_witness :
    invFormat 1 = "INV-00001" ∧ (2 < 3) ∧
    (∃ st : SaleStore, createEmptyN 3 = some st ∧ st.sales.length = 3 ∧
      st.sales[2]? = some ⟨3, invFormat 3⟩ ∧
      ∀ (existing : List Sale) (s : Sale), s.invoice_number ≠ "" →
        assignInvoice existing s = some s) :=
  ⟨by decide, by decide, sale_invoice_sequence 3 2 (by decide)⟩
